import Mathlib

/-!
Shallow embedding of the physics core of the bounce-back game, translated from
the TypeScript sources of the repository:

* `src/unnamed/part_012` — the `Vec` 2D-vector module, the moving-obstacle
  kinematics (`getBrickAtTime`), the headless per-frame simulation
  (`simulateShot`) and the solvability sweep (`findSolvableShot`);
* `src/utils/geometry.ts` — rotated-rectangle SAT collision
  (`getRectVertices`, `getRectAxes`, projections, `checkCircleRectCollision`,
  `doRectsOverlap`);
* `src/unnamed/part_013` — the fired-ball update of the real-time game loop
  (`runGameLoop`);
* `src/unnamed/part_000` — numeric game constants.

JavaScript numbers are modelled by exact reals (`ℝ`); `Math.sqrt`, `Math.sin`
and `Math.cos` by `Real.sqrt`, `Real.sin`, `Real.cos`.  Optional fields and
`??` defaults are modelled with `Option`.  Early-`return` loops are modelled
by structural recursion on the list being traversed.
-/

open Classical

noncomputable section

/-- A 2D point/vector, `Point` in `src/types.ts`. -/
structure Pt where
  x : ℝ
  y : ℝ

namespace Vec

/-- Source `Vec.create` from part_012 (defaults `x = 0, y = 0` applied at call sites). -/
def create (x y : ℝ) : Pt := ⟨x, y⟩

/-- Source `Vec.add`. -/
def add (v1 v2 : Pt) : Pt := ⟨v1.x + v2.x, v1.y + v2.y⟩

/-- Source `Vec.sub`. -/
def sub (v1 v2 : Pt) : Pt := ⟨v1.x - v2.x, v1.y - v2.y⟩

/-- Source `Vec.scale`. -/
def scale (v : Pt) (s : ℝ) : Pt := ⟨v.x * s, v.y * s⟩

/-- Source `Vec.dot`. -/
def dot (v1 v2 : Pt) : ℝ := v1.x * v2.x + v1.y * v2.y

/-- Source `Vec.lenSq`. -/
def lenSq (v : Pt) : ℝ := v.x * v.x + v.y * v.y

/-- Source `Vec.len`. -/
def len (v : Pt) : ℝ := Real.sqrt (lenSq v)

/-- Source `Vec.normalize`: returns the zero vector when the length is zero,
otherwise scales by the reciprocal length. -/
def normalize (v : Pt) : Pt :=
  if len v = 0 then create 0 0 else scale v (1 / len v)

/-- Source `Vec.perp`: 90-degree rotation. -/
def perp (v : Pt) : Pt := ⟨-v.y, v.x⟩

/-- Source `Vec.reflect`: `v − 2(v·n)n`. -/
def reflect (v normal : Pt) : Pt :=
  sub v (scale normal (2 * dot v normal))

/-- Source `Vec.rotate`. -/
def rotate (v : Pt) (angle : ℝ) : Pt :=
  ⟨v.x * Real.cos angle - v.y * Real.sin angle,
   v.x * Real.sin angle + v.y * Real.cos angle⟩

end Vec

/-- Movement type of a brick, `BrickMovementType` in `src/types.ts`
(string-valued enum `vertical` / `horizontal`). -/
inductive MoveType where
  | vertical
  | horizontal
deriving DecidableEq

/-- A simulation brick (the `SimulationBrick` shape used by part_012 and the
validated `Brick` of `src/types.ts`): top-left anchor `x, y`, extents,
rotation angle, lethal flag and the optional movement descriptor.
`moveSpeed`, `initialX`, `initialY` are optional exactly as in the source
(`moveSpeed?` is defaulted via `?? DEFAULT_MOVE_SPEED` where used). -/
structure Brick where
  x : ℝ
  y : ℝ
  width : ℝ
  height : ℝ
  angle : ℝ
  isKillBrick : Bool
  movementType : Option MoveType
  moveRange : ℝ
  moveSpeed : Option ℝ
  initialX : Option ℝ
  initialY : Option ℝ

/-- The geometric circle the collision code reads from the ball:
`{x, y, radius}` (`Ball` fields used by `src/utils/geometry.ts`). -/
structure Ball where
  x : ℝ
  y : ℝ
  radius : ℝ

/-- An axis-aligned rectangle, `Rect` in `src/types.ts`. -/
structure Rect where
  x : ℝ
  y : ℝ
  width : ℝ
  height : ℝ

/-- A projection interval, `Projection` in `src/types.ts`. -/
structure Projection where
  min : ℝ
  max : ℝ

/-- Result of `checkCircleRectCollision`: either `{collision: false}` or
`{collision: true, normal, overlap}`. -/
inductive CollisionResult where
  | miss
  | hit (normal : Pt) (overlap : ℝ)

/-- Constant `DEFAULT_MOVE_SPEED = 1.0` from part_000. -/
def DEFAULT_MOVE_SPEED : ℝ := 1.0

/-- Constant `COLLISION_PUSH_FACTOR = 1.01` from part_000. -/
def COLLISION_PUSH_FACTOR : ℝ := 1.01

/-- Constant `AIM_POWER_FACTOR = 10.0` from part_000. -/
def AIM_POWER_FACTOR : ℝ := 10.0

/-- Constant `MIN_AIM_VY = -0.1` from part_000. -/
def MIN_AIM_VY : ℝ := -0.1

/-- Constant `BASE_PLAYER_WIDTH = 40` from part_000. -/
def BASE_PLAYER_WIDTH : ℝ := 40

/-- Constant `BASE_PLAYER_HEIGHT = 10` from part_000. -/
def BASE_PLAYER_HEIGHT : ℝ := 10

/-- Constant `BASE_BALL_RADIUS = 10` from part_000. -/
def BASE_BALL_RADIUS : ℝ := 10

/-- Constant `BASE_HOLE_RADIUS = 15` from part_000. -/
def BASE_HOLE_RADIUS : ℝ := 15

/-- Constant `BASE_MIN_BRICK_DIMENSION = 10` from part_000. -/
def BASE_MIN_BRICK_DIMENSION : ℝ := 10

/-- Constant `BASE_PLAYER_DEFAULT_BOTTOM_OFFSET = 60` from part_000. -/
def BASE_PLAYER_DEFAULT_BOTTOM_OFFSET : ℝ := 60

/-- Constant `BASE_DEFAULT_MOVE_RANGE = 50` from part_000. -/
def BASE_DEFAULT_MOVE_RANGE : ℝ := 50

/-- Constant `FALLBACK_CANVAS_WIDTH = 800` from part_000. -/
def FALLBACK_CANVAS_WIDTH : ℝ := 800

/-- Constant `FALLBACK_CANVAS_HEIGHT = 600` from part_000. -/
def FALLBACK_CANVAS_HEIGHT : ℝ := 600

/-- Source `getBrickAtTime` from part_012: a brick with a movement descriptor is
displaced from its anchor `(initialX, initialY)` by
`moveRange * sin(timeSeconds * (moveSpeed ?? DEFAULT_MOVE_SPEED))` along its
movement axis; a brick without one (or without an anchor) is returned
unchanged. -/
def getBrickAtTime (brick : Brick) (timeSeconds : ℝ) : Brick :=
  match brick.movementType, brick.initialX, brick.initialY with
  | some mt, some ax, some ay =>
      let offset := brick.moveRange *
        Real.sin (timeSeconds * (brick.moveSpeed.getD DEFAULT_MOVE_SPEED))
      match mt with
      | MoveType.vertical => { brick with x := ax, y := ay + offset }
      | MoveType.horizontal => { brick with x := ax + offset, y := ay }
  | _, _, _ => brick

/-- Source `getRectVertices` from `src/utils/geometry.ts`: the four corners
(top-left, top-right, bottom-right, bottom-left) obtained by rotating the
half-extent offsets by `brick.angle` about the brick center.  The source guard
`brick.angle || 0` only replaces a missing angle by `0`; `angle` is
always present here. -/
def getRectVertices (brick : Brick) : List Pt :=
  let cx := brick.x + brick.width / 2
  let cy := brick.y + brick.height / 2
  let hw := brick.width / 2
  let hh := brick.height / 2
  let angle := brick.angle
  [Pt.mk (-hw) (-hh), Pt.mk hw (-hh), Pt.mk hw hh, Pt.mk (-hw) hh].map
    (fun corner =>
      ⟨cx + (corner.x * Real.cos angle - corner.y * Real.sin angle),
       cy + (corner.x * Real.sin angle + corner.y * Real.cos angle)⟩)

/-- Body of the `getRectAxes` loop: keep the axis list unchanged when the
new normal is parallel (within the `0.999` dot tolerance) to a collected
axis, else push it. -/
def dedupAdd (axes : List Pt) (normal : Pt) : List Pt :=
  if ∃ ax ∈ axes, 0.999 < |Vec.dot ax normal| then axes
  else axes ++ [normal]

/-- Source `getRectAxes` from `src/utils/geometry.ts`: for each edge the normalized
outward perpendicular, deduplicated against already-collected axes when the
absolute dot product exceeds `0.999`. -/
def getRectAxes (vertices : List Pt) : List Pt :=
  (List.range vertices.length).foldl
    (fun axes i =>
      let p1 := vertices.getD i ⟨0, 0⟩
      let p2 := vertices.getD ((i + 1) % vertices.length) ⟨0, 0⟩
      let edge := Vec.sub p2 p1
      dedupAdd axes (Vec.normalize (Vec.perp edge)))
    []

/-- Body of the `projectShapeOntoAxis` loop: widen the running projection
interval by the dot product of one vertex. -/
def projStep (axis : Pt) (pr : Projection) (p : Pt) : Projection :=
  let d := Vec.dot p axis
  if d < pr.min then ⟨d, pr.max⟩
  else if pr.max < d then ⟨pr.min, d⟩
  else pr

/-- Source `projectShapeOntoAxis` from `src/utils/geometry.ts`: fold the widening
step over the remaining vertices, starting from the projection of the
first vertex.  The source indexes `vertices[0]` unconditionally; the
empty-list case (unreachable: callers pass the four rectangle corners) is
given the degenerate projection `⟨0, 0⟩`. -/
def projectShapeOntoAxis (vertices : List Pt) (axis : Pt) : Projection :=
  match vertices with
  | [] => ⟨0, 0⟩
  | v :: vs => vs.foldl (projStep axis) ⟨Vec.dot v axis, Vec.dot v axis⟩

/-- Source `projectCircleOntoAxis` from `src/utils/geometry.ts`. -/
def projectCircleOntoAxis (ball : Ball) (axis : Pt) : Projection :=
  let centerProj := Vec.dot (Vec.create ball.x ball.y) axis
  ⟨centerProj - ball.radius, centerProj + ball.radius⟩

/-- Projection overlap of the rectangle and the circle on one axis, the
quantity `Math.min(rectProj.max, circleProj.max) − Math.max(rectProj.min,
circleProj.min)` computed inside the axis loop of `checkCircleRectCollision`. -/
def overlapOn (vertices : List Pt) (ball : Ball) (axis : Pt) : ℝ :=
  let rectProj := projectShapeOntoAxis vertices axis
  let circleProj := projectCircleOntoAxis ball axis
  min rectProj.max circleProj.max - max rectProj.min circleProj.min

/-- Body of the `closestVertex` / `minDistSq` scan in
`checkCircleRectCollision`: keep the strictly closer of two vertices. -/
def closerVertex (c : Pt) (best p : Pt) : Pt :=
  if Vec.lenSq (Vec.sub c p) < Vec.lenSq (Vec.sub c best) then p
  else best

/-- Closest rectangle vertex to the circle center (the
`closestVertex` / `minDistSq` scan in `checkCircleRectCollision`; the source
reads `rectVertices[0]` first, so the empty case is unreachable). -/
def findClosestVertex (c : Pt) (vs : List Pt) : Pt :=
  match vs with
  | [] => ⟨0, 0⟩
  | v :: rest => rest.foldl (closerVertex c) v

/-- Candidate separating axes assembled by `checkCircleRectCollision`: the
edge normals plus, when not degenerate (`lenSq > 0.0001`) and not parallel to
an edge normal, the normalized direction from the closest vertex to the
circle center. -/
def collisionAxes (ball : Ball) (brick : Brick) : List Pt :=
  let rectVertices := getRectVertices brick
  let circleCenter := Vec.create ball.x ball.y
  let axes := getRectAxes rectVertices
  let closestVertex := findClosestVertex circleCenter rectVertices
  let axisToClosestVertex := Vec.normalize (Vec.sub circleCenter closestVertex)
  if 0.0001 < Vec.lenSq axisToClosestVertex ∧
      ¬ ∃ ax ∈ axes, 0.999 < |Vec.dot ax axisToClosestVertex| then
    axes ++ [axisToClosestVertex]
  else axes

/-- Accumulator of the axis loop: `minOverlap = Infinity, mtvAxis = null`
initially, else the best (smallest-overlap) axis seen so far. -/
inductive ScanState where
  | noAxis
  | best (minOverlap : ℝ) (mtvAxis : Pt)

/-- Result of the axis loop: `separated` models the early
`return {collision: false}` on a non-positive overlap. -/
inductive ScanOutcome where
  | separated
  | done (state : ScanState)

/-- The axis loop of `checkCircleRectCollision`: walk the candidate axes,
returning `separated` at the first non-positive overlap, else tracking the
strictly smallest overlap and its axis. -/
def scanAxes (vertices : List Pt) (ball : Ball) :
    List Pt → ScanState → ScanOutcome
  | [], acc => ScanOutcome.done acc
  | axis :: rest, acc =>
      let overlap := overlapOn vertices ball axis
      if overlap ≤ 0 then ScanOutcome.separated
      else
        match acc with
        | ScanState.noAxis =>
            scanAxes vertices ball rest (ScanState.best overlap axis)
        | ScanState.best m a =>
            if overlap < m then
              scanAxes vertices ball rest (ScanState.best overlap axis)
            else scanAxes vertices ball rest (ScanState.best m a)

/-- Source `checkCircleRectCollision` from `src/utils/geometry.ts`: SAT over the
edge normals plus the corner axis; on overlap everywhere, the
minimum-translation axis is flipped if needed to point from the rectangle
center toward the circle center. -/
def checkCircleRectCollision (ball : Ball) (brick : Brick) : CollisionResult :=
  let rectVertices := getRectVertices brick
  let circleCenter := Vec.create ball.x ball.y
  let rectCenter := Vec.create (brick.x + brick.width / 2) (brick.y + brick.height / 2)
  match scanAxes rectVertices ball (collisionAxes ball brick) ScanState.noAxis with
  | ScanOutcome.separated => CollisionResult.miss
  | ScanOutcome.done ScanState.noAxis => CollisionResult.miss
  | ScanOutcome.done (ScanState.best minOverlap mtvAxis) =>
      let centerDirection := Vec.sub circleCenter rectCenter
      if Vec.dot mtvAxis centerDirection < 0 then
        CollisionResult.hit (Vec.scale mtvAxis (-1)) minOverlap
      else CollisionResult.hit mtvAxis minOverlap

/-- Source `doRectsOverlap` from `src/utils/geometry.ts`. -/
def doRectsOverlap (rect1 rect2 : Rect) : Prop :=
  rect1.x < rect2.x + rect2.width ∧
  rect1.x + rect1.width > rect2.x ∧
  rect1.y < rect2.y + rect2.height ∧
  rect1.y + rect1.height > rect2.y

/-- The mutable ball record of `simulateShot` (part_012) and the fired ball
of `runGameLoop` (part_013): position, radius and velocity. -/
structure SimBall where
  x : ℝ
  y : ℝ
  radius : ℝ
  vx : ℝ
  vy : ℝ

/-- The circle the collision code reads from a simulation ball. -/
def SimBall.circle (b : SimBall) : Ball := ⟨b.x, b.y, b.radius⟩

/-- The goal ("home") test shared verbatim by part_012 lines 240-246 and
part_013 lines 567-569: the squared center distance is compared against
`0.8` times the squared radii sum,
`distToHoleSq < radiiSumSq * 0.8` with `radiiSum = ballRadius + holeRadius`. -/
def goalTest (ballPos holeCenter : Pt) (ballRadius holeRadius : ℝ) : Prop :=
  Vec.lenSq (Vec.sub ballPos holeCenter) <
    ((ballRadius + holeRadius) * (ballRadius + holeRadius)) * 0.8

/-- Modelled from the spec (for comparison only, not from the source): the
spec formula `containsGoal`: "true iff
`distance(ballPos, goalCenter) < goalRadius − k·ballRadius`". -/
def specContainsGoal (k : ℝ) (ballPos goalCenter : Pt) (goalRadius ballRadius : ℝ) : Prop :=
  Real.sqrt (Vec.lenSq (Vec.sub ballPos goalCenter)) < goalRadius - k * ballRadius

/-- One bounce applied to the ball by the brick loop of part_012/part_013:
push the position out along the collision normal scaled by
`overlap * COLLISION_PUSH_FACTOR` and reflect the velocity off the normal. -/
def applyBounce (ball : SimBall) (normal : Pt) (overlap : ℝ) : SimBall :=
  let pushVector := Vec.scale normal (overlap * COLLISION_PUSH_FACTOR)
  let reflectedVel := Vec.reflect ⟨ball.vx, ball.vy⟩ normal
  { ball with
    x := ball.x + pushVector.x
    y := ball.y + pushVector.y
    vx := reflectedVel.x
    vy := reflectedVel.y }

/-- The brick loop of `simulateShot` (part_012 lines 202-222): each brick is
displaced by `getBrickAtTime`, a kill-brick collision returns `false`
(modelled `none`), and every other collision with a nonzero overlap (the
truthiness test `collision.normal && collision.overlap` in the source) bounces the
evolving ball.  There is no break: later bricks see the ball already pushed
and reflected by earlier ones. -/
def processBricks (timeSeconds : ℝ) : SimBall → List Brick → Option SimBall
  | ball, [] => some ball
  | ball, baseBrick :: rest =>
      let brick := getBrickAtTime baseBrick timeSeconds
      match checkCircleRectCollision ball.circle brick with
      | CollisionResult.miss => processBricks timeSeconds ball rest
      | CollisionResult.hit normal overlap =>
          if brick.isKillBrick then none
          else if overlap = 0 then processBricks timeSeconds ball rest
          else processBricks timeSeconds (applyBounce ball normal overlap) rest

/-- Observation of the same brick loop: how many push-out/reflection pairs
the loop applies to the ball in one tick (0 when it aborts on a kill
brick). -/
def countBounces (timeSeconds : ℝ) : SimBall → List Brick → ℕ
  | _, [] => 0
  | ball, baseBrick :: rest =>
      let brick := getBrickAtTime baseBrick timeSeconds
      match checkCircleRectCollision ball.circle brick with
      | CollisionResult.miss => countBounces timeSeconds ball rest
      | CollisionResult.hit normal overlap =>
          if brick.isKillBrick then 0
          else if overlap = 0 then countBounces timeSeconds ball rest
          else 1 + countBounces timeSeconds (applyBounce ball normal overlap) rest

/-- Wall-out test of `simulateShot` (part_012 lines 190-196): the ball dies
as soon as its circle extends past the left, right or top edge. -/
def simWallOut (width : ℝ) (ball : SimBall) : Prop :=
  ball.x - ball.radius < 0 ∨ ball.x + ball.radius > width ∨ ball.y - ball.radius < 0

/-- Bottom-out test of `simulateShot` (part_012 lines 198-200): the ball dies
only once its center is more than two radii below the arena height. -/
def simBottomOut (height : ℝ) (ball : SimBall) : Prop :=
  ball.y > height + ball.radius * 2

/-- Wall-out test of `runGameLoop` (part_013 line 528), textually the same
formula as in `simulateShot`. -/
def loopWallOut (canvasWidth : ℝ) (ball : SimBall) : Prop :=
  ball.x - ball.radius < 0 ∨ ball.x + ball.radius > canvasWidth ∨
    ball.y - ball.radius < 0

/-- Bottom-out test of `runGameLoop` (part_013 line 533), textually the same
formula as in `simulateShot`. -/
def loopBottomOut (canvasHeight : ℝ) (ball : SimBall) : Prop :=
  ball.y > canvasHeight + ball.radius * 2

/-- The player rectangle of the part_012 `PreparedLevel`. -/
structure PlayerRect where
  x : ℝ
  y : ℝ
  width : ℝ
  height : ℝ

/-- The hole of the part_012 `PreparedLevel`. -/
structure HoleData where
  x : ℝ
  y : ℝ
  radius : ℝ

/-- The ball start of the part_012 `PreparedLevel`. -/
structure BallStart where
  x : ℝ
  y : ℝ
  radius : ℝ

/-- Source `PreparedLevel` from part_012. -/
structure PreparedLevel where
  width : ℝ
  height : ℝ
  player : PlayerRect
  hole : HoleData
  ballStart : BallStart
  bricks : List Brick

/-- Result of one frame of the `simulateShot` loop: `dead` models the
`return false` paths, `home` the `return true` path, `next` a frame that
falls through to the next iteration with the updated ball. -/
inductive FrameResult where
  | dead
  | home
  | next (ball : SimBall)

/-- The part of a `simulateShot` frame that follows the two boundary checks
(part_012 lines 202-246): the brick loop, the player-body overlap check and
the goal check, all on the ball as updated by the collision responses. -/
def frameStepCore (lvl : PreparedLevel) (timeSeconds : ℝ) (moved : SimBall) :
    FrameResult :=
  match processBricks timeSeconds moved lvl.bricks with
  | none => FrameResult.dead
  | some ball2 =>
      let playerRect : Rect :=
        ⟨lvl.player.x, lvl.player.y, lvl.player.width, lvl.player.height⟩
      let ballRect : Rect :=
        ⟨ball2.x - ball2.radius, ball2.y - ball2.radius,
         ball2.radius * 2, ball2.radius * 2⟩
      if doRectsOverlap ballRect playerRect then FrameResult.dead
      else if goalTest ⟨ball2.x, ball2.y⟩ ⟨lvl.hole.x, lvl.hole.y⟩
          ball2.radius lvl.hole.radius then FrameResult.home
      else FrameResult.next ball2

/-- The position update `ball.x += ball.vx; ball.y += ball.vy` at the top of
each `simulateShot` frame (part_012 lines 187-188). -/
def simMove (ball : SimBall) : SimBall :=
  { ball with x := ball.x + ball.vx, y := ball.y + ball.vy }

/-- One iteration of the frame loop of `simulateShot` (part_012 lines 184-247):
advance the ball by its velocity, then the wall/bottom boundary checks, then
`frameStepCore`. -/
def frameStep (lvl : PreparedLevel) (phaseOffsetSeconds : ℝ) (frame : ℕ)
    (ball : SimBall) : FrameResult :=
  let timeSeconds := phaseOffsetSeconds + (frame : ℝ) / 60
  let moved := simMove ball
  if simWallOut lvl.width moved then FrameResult.dead
  else if simBottomOut lvl.height moved then FrameResult.dead
  else frameStepCore lvl timeSeconds moved

/-- The frame loop of `simulateShot`, by recursion on the remaining frame
budget; `frame` is the current frame index (`for (frame = 0; frame <
maxFrames; frame++)`), and falling off the end of the budget is the final
`return false`. -/
def runFrames (lvl : PreparedLevel) (phaseOffsetSeconds : ℝ) :
    ℕ → ℕ → SimBall → Bool
  | _, 0, _ => false
  | frame, remaining + 1, ball =>
      match frameStep lvl phaseOffsetSeconds frame ball with
      | FrameResult.dead => false
      | FrameResult.home => true
      | FrameResult.next ball2 =>
          runFrames lvl phaseOffsetSeconds (frame + 1) remaining ball2

/-- Source `simulateShot` from part_012: run up to `maxFrames` frames from the
prepared ball start with launch velocity `(vx, vy)`. -/
def simulateShot (prepared : PreparedLevel) (vx vy phaseOffsetSeconds : ℝ)
    (maxFrames : ℕ) : Bool :=
  runFrames prepared phaseOffsetSeconds 0 maxFrames
    ⟨prepared.ballStart.x, prepared.ballStart.y, prepared.ballStart.radius, vx, vy⟩

/-- Result of the fired-ball update of `runGameLoop` (part_013): `reset`
models the "Restarting" paths, `complete` the level-complete path, `next`
the fall-through that commits the updated ball. -/
inductive LoopResult where
  | reset
  | complete
  | next (ball : SimBall)

/-- The brick loop of `runGameLoop` (part_013 lines 539-557).  The bricks
have already been displaced by the movement map earlier in the tick, so no
`getBrickAtTime` call appears here; otherwise the body is identical to the
one in `simulateShot`: kill bricks reset, and every other collision with a
truthy overlap bounces the evolving ball. -/
def processBricksLoop : SimBall → List Brick → Option SimBall
  | ball, [] => some ball
  | ball, brick :: rest =>
      match checkCircleRectCollision ball.circle brick with
      | CollisionResult.miss => processBricksLoop ball rest
      | CollisionResult.hit normal overlap =>
          if brick.isKillBrick then none
          else if overlap = 0 then processBricksLoop ball rest
          else processBricksLoop (applyBounce ball normal overlap) rest

/-- The part of the `runGameLoop` ball update after the two boundary checks
(part_013 lines 539-585): brick loop, player-body overlap, then the goal
test (level complete). -/
def gameLoopStepCore (bricks : List Brick) (player : PlayerRect)
    (hole : HoleData) (moved : SimBall) : LoopResult :=
  match processBricksLoop moved bricks with
  | none => LoopResult.reset
  | some newBall =>
      let playerRect : Rect := ⟨player.x, player.y, player.width, player.height⟩
      let ballRect : Rect :=
        ⟨newBall.x - newBall.radius, newBall.y - newBall.radius,
         newBall.radius * 2, newBall.radius * 2⟩
      if doRectsOverlap ballRect playerRect then LoopResult.reset
      else if goalTest ⟨newBall.x, newBall.y⟩ ⟨hole.x, hole.y⟩
          newBall.radius hole.radius then LoopResult.complete
      else LoopResult.next newBall

/-- The position update `newBall.x += newBall.vx * deltaTime * 60; ...` at
the top of the `runGameLoop` fired-ball branch (part_013 lines 521-522). -/
def loopMove (deltaTime : ℝ) (ball : SimBall) : SimBall :=
  { ball with
    x := ball.x + ball.vx * deltaTime * 60
    y := ball.y + ball.vy * deltaTime * 60 }

/-- The fired-ball update of one `runGameLoop` tick (part_013 lines
519-585), continued: boundary checks, then `gameLoopStepCore` against the
already-displaced bricks. -/
def gameLoopStep (bricks : List Brick) (player : PlayerRect) (hole : HoleData)
    (canvasWidth canvasHeight deltaTime : ℝ) (ball : SimBall) : LoopResult :=
  let moved := loopMove deltaTime ball
  if loopWallOut canvasWidth moved then LoopResult.reset
  else if loopBottomOut canvasHeight moved then LoopResult.reset
  else gameLoopStepCore bricks player hole moved

/-- Input brick record accepted by `buildPreparedLevel` (part_012): every
numeric field may be absent, as exercised by the `??` defaults in the
source.  The string normalization of `normalizeMovementType` (trim +
lowercase) is elided: the movement type arrives already parsed, `none` for
anything unrecognized. -/
structure InputBrick where
  x : Option ℝ
  y : Option ℝ
  width : Option ℝ
  height : Option ℝ
  angle : Option ℝ
  isKillBrick : Bool
  movementType : Option MoveType
  moveRange : Option ℝ
  moveSpeed : Option ℝ
  initialX : Option ℝ
  initialY : Option ℝ

/-- A player or hole position in a stored level. -/
structure LevelPos where
  x : Option ℝ
  y : Option ℝ

/-- The fields of `LevelData` that `buildPreparedLevel` reads.  The
`savedCanvasWidth || FALLBACK_CANVAS_WIDTH` falsy test is modelled by
treating `0` (the falsy number of JavaScript) like an absent value. -/
structure LevelData where
  savedCanvasWidth : ℝ
  savedCanvasHeight : ℝ
  player : Option LevelPos
  hole : Option LevelPos
  bricks : List InputBrick

/-- Source `buildPreparedLevel` from part_012 lines 115-161: resolve the canvas
size, default the player, hole and ball start, and default every brick
field, clamping brick extents to the minimum dimension. -/
def buildPreparedLevel (level : LevelData) : PreparedLevel :=
  let width := max 1 (if level.savedCanvasWidth = 0 then FALLBACK_CANVAS_WIDTH
    else level.savedCanvasWidth)
  let height := max 1 (if level.savedCanvasHeight = 0 then FALLBACK_CANVAS_HEIGHT
    else level.savedCanvasHeight)
  let playerYFallback := height - BASE_PLAYER_DEFAULT_BOTTOM_OFFSET
  let player : PlayerRect :=
    ⟨((level.player.bind LevelPos.x).getD (width / 2 - BASE_PLAYER_WIDTH / 2)),
     ((level.player.bind LevelPos.y).getD playerYFallback),
     BASE_PLAYER_WIDTH, BASE_PLAYER_HEIGHT⟩
  let hole : HoleData :=
    ⟨((level.hole.bind LevelPos.x).getD (width / 2)),
     ((level.hole.bind LevelPos.y).getD BASE_PLAYER_DEFAULT_BOTTOM_OFFSET),
     BASE_HOLE_RADIUS⟩
  let ballStart : BallStart :=
    ⟨player.x + player.width / 2, player.y - BASE_BALL_RADIUS - 2,
     BASE_BALL_RADIUS⟩
  let bricks : List Brick := level.bricks.map (fun brick =>
    let widthValue := max BASE_MIN_BRICK_DIMENSION (brick.width.getD 100)
    let heightValue := max BASE_MIN_BRICK_DIMENSION (brick.height.getD 20)
    { x := brick.x.getD (width / 2 - 50)
      y := brick.y.getD (height / 2)
      width := widthValue
      height := heightValue
      angle := brick.angle.getD 0
      isKillBrick := brick.isKillBrick
      movementType := brick.movementType
      moveRange := brick.moveRange.getD BASE_DEFAULT_MOVE_RANGE
      moveSpeed := some (brick.moveSpeed.getD DEFAULT_MOVE_SPEED)
      initialX := some (brick.initialX.getD
        (brick.x.getD (width / 2 - 50)))
      initialY := some (brick.initialY.getD
        (brick.y.getD (height / 2))) })
  ⟨width, height, player, hole, ballStart, bricks⟩

/-- The witness shot returned by the solvability search (`SolvableShot` in
part_012). -/
structure SolvableShot where
  vx : ℝ
  vy : ℝ
  phaseOffsetSeconds : ℝ

/-- Source `SolvabilityResult` from part_012. -/
structure SolvabilityResult where
  solvable : Bool
  shot : Option SolvableShot

/-- Source `SolvabilityOptions` from part_012: all fields optional, defaulted in
`findSolvableShot`. -/
structure SolvabilityOptions where
  maxFrames : Option ℕ
  vxStep : Option ℝ
  phaseSamples : Option ℕ
  phaseDurationSeconds : Option ℝ

/-- Source `clampLaunchVy` from part_012: `vy > MIN_AIM_VY ? MIN_AIM_VY : vy`. -/
def clampLaunchVy (vy : ℝ) : ℝ :=
  if MIN_AIM_VY < vy then MIN_AIM_VY else vy

/-- Source `Number(vx.toFixed(4))` from part_012, modelled as exact rounding of the
decimal value to four fractional digits (nearest, ties up). -/
def round4 (x : ℝ) : ℝ := (⌊x * 10000 + 1 / 2⌋ : ℝ) / 10000

/-- The inner phase loop of `findSolvableShot` (part_012 lines 269-282), by
recursion on the number of remaining samples with `i` the current index:
return the first phase sample whose simulation reaches the goal. -/
def tryPhases (prepared : PreparedLevel) (clampedVx clampedVy : ℝ)
    (phaseSamples : ℕ) (phaseDurationSeconds : ℝ) (maxFrames : ℕ) :
    ℕ → ℕ → Option SolvableShot
  | 0, _ => none
  | remaining + 1, i =>
      let phaseOffsetSeconds := phaseDurationSeconds * (i : ℝ) / (phaseSamples : ℝ)
      if simulateShot prepared clampedVx clampedVy phaseOffsetSeconds maxFrames then
        some ⟨clampedVx, clampedVy, phaseOffsetSeconds⟩
      else tryPhases prepared clampedVx clampedVy phaseSamples
        phaseDurationSeconds maxFrames remaining (i + 1)

/-- The outer velocity sweep of `findSolvableShot` (part_012 lines 259-283):
`vx` runs from `-AIM_POWER_FACTOR` upward in steps of `vxStep` while
`vx ≤ AIM_POWER_FACTOR`.  In exact arithmetic the `i`-th loop value is
`-AIM_POWER_FACTOR + i * vxStep`, so the recursion runs on a fuel of
remaining iterations with the loop guard checked before each body; the
fuel passed by `findSolvableShot` exceeds the iteration count forced by the
guard whenever `vxStep > 0`, making the fuel-exhaustion base case
unreachable there. -/
def sweepVx (prepared : PreparedLevel) (vxStep : ℝ) (phaseSamples : ℕ)
    (phaseDurationSeconds : ℝ) (maxFrames : ℕ) :
    ℕ → ℕ → SolvabilityResult
  | 0, _ => ⟨false, none⟩
  | remaining + 1, i =>
      let vx := -AIM_POWER_FACTOR + (i : ℝ) * vxStep
      if vx ≤ AIM_POWER_FACTOR then
        let clampedVx := round4 vx
        let vyMagnitudeSq :=
          max 0 (AIM_POWER_FACTOR * AIM_POWER_FACTOR - clampedVx * clampedVx)
        let baseVy := -Real.sqrt vyMagnitudeSq
        let clampedVy := clampLaunchVy baseVy
        if |clampedVx| ≤ 0.01 ∧ |clampedVy| ≤ 0.01 then
          sweepVx prepared vxStep phaseSamples phaseDurationSeconds maxFrames
            remaining (i + 1)
        else
          match tryPhases prepared clampedVx clampedVy phaseSamples
              phaseDurationSeconds maxFrames phaseSamples 0 with
          | some shot => ⟨true, some shot⟩
          | none => sweepVx prepared vxStep phaseSamples phaseDurationSeconds
              maxFrames remaining (i + 1)
      else ⟨false, none⟩

/-- Source `findSolvableShot` from part_012 lines 252-286: default the options,
prepare the level and run the grid sweep. -/
def findSolvableShot (level : LevelData) (options : SolvabilityOptions) :
    SolvabilityResult :=
  let maxFrames := options.maxFrames.getD 1200
  let vxStep := options.vxStep.getD 0.4
  let phaseSamples := options.phaseSamples.getD 12
  let phaseDurationSeconds := options.phaseDurationSeconds.getD 8
  let prepared := buildPreparedLevel level
  sweepVx prepared vxStep phaseSamples phaseDurationSeconds maxFrames
    (Nat.floor (2 * AIM_POWER_FACTOR / vxStep) + 2) 0

/-! Helper lemmas about the vector module. -/

/-- The `lenSq` of any vector is nonnegative. -/
theorem lenSq_nonneg (v : Pt) : 0 ≤ Vec.lenSq v := by
  have hx : 0 ≤ v.x * v.x := mul_self_nonneg _
  have hy : 0 ≤ v.y * v.y := mul_self_nonneg _
  unfold Vec.lenSq
  linarith

/-- The `len` of any vector is nonnegative. -/
theorem len_nonneg (v : Pt) : 0 ≤ Vec.len v := Real.sqrt_nonneg _

/-- Squaring the length recovers `lenSq`. -/
theorem len_sq_eq (v : Pt) : Vec.len v * Vec.len v = Vec.lenSq v := by
  unfold Vec.len
  exact Real.mul_self_sqrt (lenSq_nonneg v)

/-- The length is zero exactly on the zero vector. -/
theorem len_eq_zero_iff (v : Pt) : Vec.len v = 0 ↔ v = ⟨0, 0⟩ := by
  constructor
  · intro h
    have h2 : Vec.lenSq v = 0 := by
      have := len_sq_eq v
      rw [h] at this
      linarith
    have hx : 0 ≤ v.x * v.x := mul_self_nonneg _
    have hy : 0 ≤ v.y * v.y := mul_self_nonneg _
    unfold Vec.lenSq at h2
    have hx0 : v.x * v.x = 0 := by linarith
    have hy0 : v.y * v.y = 0 := by linarith
    cases v with
    | mk a b =>
      simp only [Pt.mk.injEq]
      constructor
      · exact mul_self_eq_zero.mp hx0
      · exact mul_self_eq_zero.mp hy0
  · intro h
    subst h
    unfold Vec.len Vec.lenSq
    simp

/-- Scaling multiplies the length by the absolute scale factor. -/
theorem len_scale (v : Pt) (s : ℝ) : Vec.len (Vec.scale v s) = |s| * Vec.len v := by
  unfold Vec.len Vec.lenSq Vec.scale
  have h : v.x * s * (v.x * s) + v.y * s * (v.y * s) =
      (s * s) * (v.x * v.x + v.y * v.y) := by ring
  rw [h, Real.sqrt_mul (mul_self_nonneg s)]
  congr 1
  rw [show s * s = s ^ 2 by ring, Real.sqrt_sq_eq_abs]

/-- Normalizing a nonzero vector yields a unit vector. -/
theorem len_normalize (v : Pt) (h : v ≠ ⟨0, 0⟩) : Vec.len (Vec.normalize v) = 1 := by
  have hlen : Vec.len v ≠ 0 := fun hc => h ((len_eq_zero_iff v).mp hc)
  have hpos : 0 < Vec.len v := lt_of_le_of_ne (len_nonneg v) (Ne.symm hlen)
  unfold Vec.normalize
  rw [if_neg hlen, len_scale]
  rw [abs_of_pos (by positivity : (0:ℝ) < 1 / Vec.len v)]
  field_simp

/-- Dot product scales linearly in its first argument. -/
theorem dot_scale (a b : Pt) (s : ℝ) :
    Vec.dot (Vec.scale a s) b = s * Vec.dot a b := by
  unfold Vec.dot Vec.scale
  ring

/-- A vector whose squared length is a perfect square has length the
absolute value of the root. -/
theorem len_eq_abs_of_sq (v : Pt) (a : ℝ) (h : Vec.lenSq v = a ^ 2) :
    Vec.len v = |a| := by
  unfold Vec.len
  rw [h, Real.sqrt_sq_eq_abs]

/-- C6.  For every unit-length normal `n` and every velocity `v`,
`reflect (reflect v n) n = v`: reflection `v − 2(v·n)n` against a unit
normal is an involution. -/
theorem reflect_involution (v n : Pt) (h : Vec.len n = 1) :
    Vec.reflect (Vec.reflect v n) n = v := by
  have hs : n.x * n.x + n.y * n.y = 1 := by
    have h2 := len_sq_eq n
    rw [h] at h2
    unfold Vec.lenSq at h2
    linarith
  unfold Vec.reflect Vec.sub Vec.scale Vec.dot
  cases v with
  | mk vx vy =>
    cases n with
    | mk nx ny =>
      simp only [Pt.mk.injEq]
      simp only at hs
      constructor
      · linear_combination (4 * (vx * nx + vy * ny) * nx) * hs
      · linear_combination (4 * (vx * nx + vy * ny) * ny) * hs

/-- C6 witness: the involution at the concrete unit normal `(0, 1)` and
velocity `(3, 4)`. -/
theorem reflect_involution_witness :
    Vec.len ⟨0, 1⟩ = 1 ∧ Vec.reflect (Vec.reflect ⟨3, 4⟩ ⟨0, 1⟩) ⟨0, 1⟩ = ⟨3, 4⟩ := by
  have h : Vec.len ⟨0, 1⟩ = 1 := by
    unfold Vec.len Vec.lenSq
    norm_num
  exact ⟨h, reflect_involution ⟨3, 4⟩ ⟨0, 1⟩ h⟩

/-- C7.  A moving brick returns exactly to its anchor `(initialX, initialY)`
whenever `simulationTime * angularRate` is an integer multiple of the full
period `2π`, for any movement axis, amplitude and anchor. -/
theorem kinematics_period (brick : Brick) (t : ℝ) (mt : MoveType) (ax ay : ℝ)
    (n : ℤ) (hmt : brick.movementType = some mt)
    (hax : brick.initialX = some ax) (hay : brick.initialY = some ay)
    (hper : t * brick.moveSpeed.getD DEFAULT_MOVE_SPEED = (n : ℝ) * (2 * Real.pi)) :
    (getBrickAtTime brick t).x = ax ∧ (getBrickAtTime brick t).y = ay := by
  have hsin : Real.sin (t * brick.moveSpeed.getD DEFAULT_MOVE_SPEED) = 0 := by
    rw [hper, show ((n : ℝ) * (2 * Real.pi)) = ((2 * n : ℤ) : ℝ) * Real.pi by
      push_cast; ring, Real.sin_int_mul_pi]
  unfold getBrickAtTime
  rw [hmt, hax, hay]
  cases mt <;> simp [hsin]

/-- C7 witness: a vertically oscillating brick with anchor `(100, 50)`,
amplitude `40` and angular rate `2` is back at its anchor at simulation time
`π` (one full period). -/
theorem kinematics_period_witness :
    (getBrickAtTime
        ⟨7, 8, 30, 20, 0, false, some MoveType.vertical, 40, some 2, some 100,
          some 50⟩ Real.pi).x = 100 ∧
      (getBrickAtTime
        ⟨7, 8, 30, 20, 0, false, some MoveType.vertical, 40, some 2, some 100,
          some 50⟩ Real.pi).y = 50 := by
  refine kinematics_period _ Real.pi MoveType.vertical 100 50 1 rfl rfl rfl ?_
  simp only [Option.getD_some]
  push_cast
  ring

/-- C8.  Normalizing the zero vector returns the zero vector (no error is
possible: the function is total), and normalizing any nonzero vector scales
it by the reciprocal of its length. -/
theorem normalize_zero_and_nonzero (v : Pt) :
    (v = ⟨0, 0⟩ → Vec.normalize v = ⟨0, 0⟩) ∧
      (v ≠ ⟨0, 0⟩ → Vec.normalize v = Vec.scale v (1 / Vec.len v)) := by
  constructor
  · intro h
    subst h
    unfold Vec.normalize
    rw [if_pos ((len_eq_zero_iff _).mpr rfl)]
    rfl
  · intro h
    unfold Vec.normalize
    rw [if_neg (fun hc => h ((len_eq_zero_iff v).mp hc))]

/-- C8 witness: both branches at concrete inputs — the zero vector maps to
the zero vector, and `(3, 4)` maps to itself scaled by `1 / len (3, 4)`. -/
theorem normalize_zero_and_nonzero_witness :
    Vec.normalize ⟨0, 0⟩ = ⟨0, 0⟩ ∧
      Vec.normalize ⟨3, 4⟩ = Vec.scale ⟨3, 4⟩ (1 / Vec.len ⟨3, 4⟩) := by
  constructor
  · exact (normalize_zero_and_nonzero ⟨0, 0⟩).1 rfl
  · refine (normalize_zero_and_nonzero ⟨3, 4⟩).2 ?_
    intro hc
    have hx : (3 : ℝ) = 0 := congrArg Pt.x hc
    norm_num at hx

/-- C1 counterexample.  At ball position `(20, 0)`, goal center `(0, 0)`,
goal radius `15` and ball radius `10`, the goal test of the code succeeds
(`400 < 0.8 * 25²  = 500`), yet the distance `20` exceeds
`goalRadius − k·ballRadius` for every tolerance `k ∈ (0, 1)` — so no such
`k` makes the claimed biconditional true. -/
theorem goalTest_counterexample :
    goalTest ⟨20, 0⟩ ⟨0, 0⟩ 10 15 ∧
      ∀ k : ℝ, 0 < k → k < 1 → ¬ specContainsGoal k ⟨20, 0⟩ ⟨0, 0⟩ 15 10 := by
  have h400 : Real.sqrt 400 = 20 := by
    rw [show (400 : ℝ) = 20 ^ 2 by norm_num]
    exact Real.sqrt_sq (by norm_num)
  constructor
  · simp only [goalTest, Vec.lenSq, Vec.sub]
    norm_num
  · intro k hk _
    simp only [specContainsGoal, Vec.lenSq, Vec.sub]
    intro hcon
    rw [show ((20 : ℝ) - 0) * ((20 : ℝ) - 0) + ((0 : ℝ) - 0) * ((0 : ℝ) - 0)
      = 400 by norm_num, h400] at hcon
    nlinarith

/-- C1 as amended.  The goal test of part_012/part_013 succeeds exactly when
the center distance is strictly below `√0.8 · (ballRadius + goalRadius)` — a
scaled radii-sum threshold, not `goalRadius − k·ballRadius` — and fails at
and beyond that boundary. -/
theorem goalTest_iff_scaled_radii_sum (p c : Pt) (ballR holeR : ℝ)
    (h : 0 ≤ ballR + holeR) :
    goalTest p c ballR holeR ↔
      Real.sqrt (Vec.lenSq (Vec.sub p c)) < Real.sqrt 0.8 * (ballR + holeR) := by
  have hd : 0 ≤ Real.sqrt (Vec.lenSq (Vec.sub p c)) := Real.sqrt_nonneg _
  have ht : 0 ≤ Real.sqrt 0.8 * (ballR + holeR) :=
    mul_nonneg (Real.sqrt_nonneg _) h
  have hdd : Real.sqrt (Vec.lenSq (Vec.sub p c)) * Real.sqrt (Vec.lenSq (Vec.sub p c))
      = Vec.lenSq (Vec.sub p c) := Real.mul_self_sqrt (lenSq_nonneg _)
  have h8 : Real.sqrt 0.8 * Real.sqrt 0.8 = 0.8 :=
    Real.mul_self_sqrt (by norm_num)
  have htt : (Real.sqrt 0.8 * (ballR + holeR)) * (Real.sqrt 0.8 * (ballR + holeR))
      = ((ballR + holeR) * (ballR + holeR)) * 0.8 := by
    calc (Real.sqrt 0.8 * (ballR + holeR)) * (Real.sqrt 0.8 * (ballR + holeR))
        = (Real.sqrt 0.8 * Real.sqrt 0.8) * ((ballR + holeR) * (ballR + holeR)) := by
          ring
      _ = ((ballR + holeR) * (ballR + holeR)) * 0.8 := by rw [h8]; ring
  unfold goalTest
  constructor
  · intro hlt
    by_contra hcon
    push_neg at hcon
    have hsq : (Real.sqrt 0.8 * (ballR + holeR)) * (Real.sqrt 0.8 * (ballR + holeR))
        ≤ Real.sqrt (Vec.lenSq (Vec.sub p c)) * Real.sqrt (Vec.lenSq (Vec.sub p c)) :=
      mul_le_mul hcon hcon ht hd
    rw [hdd, htt] at hsq
    linarith
  · intro hlt
    have hsq := mul_self_lt_mul_self hd hlt
    rw [hdd, htt] at hsq
    exact hsq

/-- C1 witness for the amended theorem: the biconditional at the concrete
input of the counterexample. -/
theorem goalTest_iff_scaled_radii_sum_witness :
    (0 : ℝ) ≤ 10 + 15 ∧
      (goalTest ⟨20, 0⟩ ⟨0, 0⟩ 10 15 ↔
        Real.sqrt (Vec.lenSq (Vec.sub ⟨20, 0⟩ ⟨0, 0⟩)) < Real.sqrt 0.8 * (10 + 15)) :=
  ⟨by norm_num, goalTest_iff_scaled_radii_sum ⟨20, 0⟩ ⟨0, 0⟩ 10 15 (by norm_num)⟩

/-- C10.  The headless solver and the real-time loop share one asymmetric
out-of-bounds rule: (i) the two wall tests and the two bottom tests are the
same predicate; (ii) together they ask exactly whether the circle extends
past the left, right or top edge, or the center is more than two radii below
the arena height; (iii) a `simulateShot` frame dies exactly at that test and
otherwise proceeds to the obstacle scan, (iv) likewise for the game loop;
(v) a ball below the bottom edge but within two radii of it is not out. -/
theorem out_of_bounds_asymmetric :
    (∀ (W H : ℝ) (b : SimBall),
        (simWallOut W b ↔ loopWallOut W b) ∧
          (simBottomOut H b ↔ loopBottomOut H b)) ∧
    (∀ (W H : ℝ) (b : SimBall),
        (simWallOut W b ∨ simBottomOut H b) ↔
          (b.x - b.radius < 0 ∨ b.x + b.radius > W ∨ b.y - b.radius < 0 ∨
            b.y > H + b.radius * 2)) ∧
    (∀ (lvl : PreparedLevel) (phase : ℝ) (frame : ℕ) (ball : SimBall),
        (simWallOut lvl.width (simMove ball) ∨ simBottomOut lvl.height (simMove ball) →
          frameStep lvl phase frame ball = FrameResult.dead) ∧
        (¬ simWallOut lvl.width (simMove ball) → ¬ simBottomOut lvl.height (simMove ball) →
          frameStep lvl phase frame ball =
            frameStepCore lvl (phase + (frame : ℝ) / 60) (simMove ball))) ∧
    (∀ (bricks : List Brick) (player : PlayerRect) (hole : HoleData)
        (W H dt : ℝ) (ball : SimBall),
        (loopWallOut W (loopMove dt ball) ∨ loopBottomOut H (loopMove dt ball) →
          gameLoopStep bricks player hole W H dt ball = LoopResult.reset) ∧
        (¬ loopWallOut W (loopMove dt ball) → ¬ loopBottomOut H (loopMove dt ball) →
          gameLoopStep bricks player hole W H dt ball =
            gameLoopStepCore bricks player hole (loopMove dt ball))) ∧
    (∀ (H : ℝ) (b : SimBall), H < b.y → b.y ≤ H + b.radius * 2 →
        ¬ simBottomOut H b) := by
  refine ⟨?_, ?_, ?_, ?_, ?_⟩
  · intro W H b
    constructor
    · exact Iff.rfl
    · exact Iff.rfl
  · intro W H b
    unfold simWallOut simBottomOut
    tauto
  · intro lvl phase frame ball
    constructor
    · intro h
      simp only [frameStep]
      rcases h with h1 | h2
      · rw [if_pos h1]
      · by_cases h1 : simWallOut lvl.width (simMove ball)
        · rw [if_pos h1]
        · rw [if_neg h1, if_pos h2]
    · intro h1 h2
      simp only [frameStep]
      rw [if_neg h1, if_neg h2]
  · intro bricks player hole W H dt ball
    constructor
    · intro h
      simp only [gameLoopStep]
      rcases h with h1 | h2
      · rw [if_pos h1]
      · by_cases h1 : loopWallOut W (loopMove dt ball)
        · rw [if_pos h1]
        · rw [if_neg h1, if_pos h2]
    · intro h1 h2
      simp only [gameLoopStep]
      rw [if_neg h1, if_neg h2]
  · intro H b _ h2
    unfold simBottomOut
    exact not_lt.mpr h2

/-- C10 witness: a ball dipped 10 units below a 600-high arena (center
`y = 610`, radius `10`) is not out, and the frame proceeds to the obstacle
scan. -/
theorem out_of_bounds_asymmetric_witness :
    ¬ simBottomOut 600 ⟨100, 610, 10, 0, 0⟩ ∧
      frameStep ⟨800, 600, ⟨0, 0, 40, 10⟩, ⟨400, 60, 15⟩, ⟨20, 530, 10⟩, []⟩ 0 0
          ⟨100, 610, 10, 0, 0⟩ =
        frameStepCore ⟨800, 600, ⟨0, 0, 40, 10⟩, ⟨400, 60, 15⟩, ⟨20, 530, 10⟩, []⟩
          (0 + ((0 : ℕ) : ℝ) / 60) (simMove ⟨100, 610, 10, 0, 0⟩) := by
  constructor
  · exact out_of_bounds_asymmetric.2.2.2.2 600 ⟨100, 610, 10, 0, 0⟩
      (by norm_num) (by norm_num)
  · exact (out_of_bounds_asymmetric.2.2.1
        ⟨800, 600, ⟨0, 0, 40, 10⟩, ⟨400, 60, 15⟩, ⟨20, 530, 10⟩, []⟩ 0 0
        ⟨100, 610, 10, 0, 0⟩).2
      (by norm_num [simWallOut, simMove])
      (by norm_num [simBottomOut, simMove])

/-- A successful phase sample carries a shot whose simulation reaches the
goal. -/
theorem tryPhases_some_sim (prepared : PreparedLevel) (cvx cvy : ℝ)
    (ps : ℕ) (pd : ℝ) (mf : ℕ) :
    ∀ (r i : ℕ) (s : SolvableShot),
      tryPhases prepared cvx cvy ps pd mf r i = some s →
      simulateShot prepared s.vx s.vy s.phaseOffsetSeconds mf = true := by
  intro r
  induction r with
  | zero =>
    intro i s h
    simp [tryPhases] at h
  | succ n ih =>
    intro i s h
    unfold tryPhases at h
    dsimp only at h
    split at h
    · rename_i hc
      rw [Option.some.injEq] at h
      subst h
      simpa using hc
    · exact ih (i + 1) s h

/-- The velocity sweep returns either an unsolvable verdict with no shot or
a solvable verdict with a shot whose simulation reaches the goal. -/
theorem sweepVx_shape (prepared : PreparedLevel) (step : ℝ) (ps : ℕ)
    (pd : ℝ) (mf : ℕ) :
    ∀ (fuel i : ℕ),
      sweepVx prepared step ps pd mf fuel i = ⟨false, none⟩ ∨
        ∃ s, sweepVx prepared step ps pd mf fuel i = ⟨true, some s⟩ ∧
          simulateShot prepared s.vx s.vy s.phaseOffsetSeconds mf = true := by
  intro fuel
  induction fuel with
  | zero =>
    intro i
    left
    rfl
  | succ n ih =>
    intro i
    unfold sweepVx
    dsimp only
    split
    · split
      · exact ih (i + 1)
      · rcases htp : tryPhases prepared (round4 (-AIM_POWER_FACTOR + (i : ℝ) * step))
            (clampLaunchVy (-Real.sqrt (max 0 (AIM_POWER_FACTOR * AIM_POWER_FACTOR -
              round4 (-AIM_POWER_FACTOR + (i : ℝ) * step) *
                round4 (-AIM_POWER_FACTOR + (i : ℝ) * step)))))
            ps pd mf ps 0 with hnone | s
        · exact ih (i + 1)
        · right
          exact ⟨s, rfl, tryPhases_some_sim prepared _ _ ps pd mf ps 0 s htp⟩
    · left
      rfl

/-- Beyond the iteration bound forced by the loop guard, the value of the sweep
does not depend on the fuel: with a positive step, iteration
`⌊2·AIM_POWER_FACTOR/step⌋ + 1` already violates `vx ≤ AIM_POWER_FACTOR`. -/
theorem sweepVx_fuel_irrelevant (prepared : PreparedLevel) (step : ℝ)
    (ps : ℕ) (pd : ℝ) (mf : ℕ) (hstep : 0 < step) :
    ∀ (f1 f2 i : ℕ),
      Nat.floor (2 * AIM_POWER_FACTOR / step) + 2 ≤ i + f1 →
      Nat.floor (2 * AIM_POWER_FACTOR / step) + 2 ≤ i + f2 →
      sweepVx prepared step ps pd mf f1 i = sweepVx prepared step ps pd mf f2 i := by
  have hguard : ∀ i : ℕ, Nat.floor (2 * AIM_POWER_FACTOR / step) + 1 ≤ i →
      ¬ (-AIM_POWER_FACTOR + (i : ℝ) * step ≤ AIM_POWER_FACTOR) := by
    intro i hi hcon
    have hfl : 2 * AIM_POWER_FACTOR / step <
        (Nat.floor (2 * AIM_POWER_FACTOR / step) : ℝ) + 1 :=
      Nat.lt_floor_add_one _
    have hcast : ((Nat.floor (2 * AIM_POWER_FACTOR / step) + 1 : ℕ) : ℝ) ≤ (i : ℝ) :=
      Nat.cast_le.mpr hi
    push_cast at hcast
    have hle : (i : ℝ) * step ≤ 2 * AIM_POWER_FACTOR := by linarith
    have hdiv : (i : ℝ) ≤ 2 * AIM_POWER_FACTOR / step := by
      rw [le_div_iff₀ hstep]
      exact hle
    linarith
  intro f1
  induction f1 with
  | zero =>
    intro f2 i h1 h2
    cases f2 with
    | zero => rfl
    | succ g =>
      have hg := hguard i (by omega)
      show sweepVx prepared step ps pd mf 0 i = sweepVx prepared step ps pd mf (g + 1) i
      unfold sweepVx
      rw [if_neg hg]
  | succ e ih =>
    intro f2 i h1 h2
    cases f2 with
    | zero =>
      have hg := hguard i (by omega)
      show sweepVx prepared step ps pd mf (e + 1) i = sweepVx prepared step ps pd mf 0 i
      unfold sweepVx
      rw [if_neg hg]
    | succ g =>
      by_cases hg : -AIM_POWER_FACTOR + (i : ℝ) * step ≤ AIM_POWER_FACTOR
      · show sweepVx prepared step ps pd mf (e + 1) i = sweepVx prepared step ps pd mf (g + 1) i
        unfold sweepVx
        rw [if_pos hg, if_pos hg]
        by_cases hskip : |round4 (-AIM_POWER_FACTOR + (i : ℝ) * step)| ≤ 0.01 ∧
            |clampLaunchVy (-Real.sqrt (max 0 (AIM_POWER_FACTOR * AIM_POWER_FACTOR -
              round4 (-AIM_POWER_FACTOR + (i : ℝ) * step) *
                round4 (-AIM_POWER_FACTOR + (i : ℝ) * step))))| ≤ 0.01
        · rw [if_pos hskip, if_pos hskip]
          exact ih g (i + 1) (by omega) (by omega)
        · rw [if_neg hskip, if_neg hskip]
          rcases htp : tryPhases prepared (round4 (-AIM_POWER_FACTOR + (i : ℝ) * step))
              (clampLaunchVy (-Real.sqrt (max 0 (AIM_POWER_FACTOR * AIM_POWER_FACTOR -
                round4 (-AIM_POWER_FACTOR + (i : ℝ) * step) *
                  round4 (-AIM_POWER_FACTOR + (i : ℝ) * step)))))
              ps pd mf ps 0 with hnone | s
          · exact ih g (i + 1) (by omega) (by omega)
          · rfl
      · show sweepVx prepared step ps pd mf (e + 1) i = sweepVx prepared step ps pd mf (g + 1) i
        unfold sweepVx
        rw [if_neg hg, if_neg hg]

/-- C5.  For every positive velocity step, `findSolvableShot` is total and
terminating: it returns either `solvable = false` with no shot, or
`solvable = true` together with a witness shot whose simulation reaches the
goal within the frame budget; and its bounded velocity grid suffices — any
fuel beyond `⌊2·AIM_POWER_FACTOR/vxStep⌋ + 2` iterations yields the same
result, because the loop guard `vx ≤ AIM_POWER_FACTOR` has already failed. -/
theorem findSolvableShot_total (level : LevelData) (opts : SolvabilityOptions)
    (h : 0 < opts.vxStep.getD 0.4) :
    (findSolvableShot level opts = ⟨false, none⟩ ∨
      ∃ s, findSolvableShot level opts = ⟨true, some s⟩ ∧
        simulateShot (buildPreparedLevel level) s.vx s.vy s.phaseOffsetSeconds
          (opts.maxFrames.getD 1200) = true) ∧
    ∀ extra : ℕ,
      sweepVx (buildPreparedLevel level) (opts.vxStep.getD 0.4)
          (opts.phaseSamples.getD 12) (opts.phaseDurationSeconds.getD 8)
          (opts.maxFrames.getD 1200)
          (Nat.floor (2 * AIM_POWER_FACTOR / opts.vxStep.getD 0.4) + 2 + extra) 0 =
        findSolvableShot level opts := by
  constructor
  · exact sweepVx_shape (buildPreparedLevel level) (opts.vxStep.getD 0.4)
      (opts.phaseSamples.getD 12) (opts.phaseDurationSeconds.getD 8)
      (opts.maxFrames.getD 1200)
      (Nat.floor (2 * AIM_POWER_FACTOR / opts.vxStep.getD 0.4) + 2) 0
  · intro extra
    exact sweepVx_fuel_irrelevant (buildPreparedLevel level) (opts.vxStep.getD 0.4)
      (opts.phaseSamples.getD 12) (opts.phaseDurationSeconds.getD 8)
      (opts.maxFrames.getD 1200) h
      (Nat.floor (2 * AIM_POWER_FACTOR / opts.vxStep.getD 0.4) + 2 + extra)
      (Nat.floor (2 * AIM_POWER_FACTOR / opts.vxStep.getD 0.4) + 2) 0
      (by omega) (by omega)

/-- C5 witness: the default options (positive step `0.4`) on an empty level
satisfy the totality disjunction. -/
theorem findSolvableShot_total_witness :
    (0 : ℝ) < (Option.getD (some (0.4 : ℝ)) 0.4) ∧
      (findSolvableShot ⟨800, 600, none, none, []⟩
          ⟨some 1200, some 0.4, some 12, some 8⟩ = ⟨false, none⟩ ∨
        ∃ s, findSolvableShot ⟨800, 600, none, none, []⟩
            ⟨some 1200, some 0.4, some 12, some 8⟩ = ⟨true, some s⟩ ∧
          simulateShot (buildPreparedLevel ⟨800, 600, none, none, []⟩)
            s.vx s.vy s.phaseOffsetSeconds 1200 = true) := by
  constructor
  · norm_num
  · exact (findSolvableShot_total ⟨800, 600, none, none, []⟩
      ⟨some 1200, some 0.4, some 12, some 8⟩ (by norm_num)).1

/-- Invariant of the axis loop started from an accumulated best axis: on
completion the final best either is the initial one or comes from the list
with its own overlap, it is no larger than the initial best, and every
scanned axis had a strictly positive overlap bounding the final best from
above. -/
theorem scanAxes_invariant (vs : List Pt) (b : Ball) :
    ∀ (axes : List Pt) (m0 : ℝ) (a0 : Pt) (m : ℝ) (a : Pt),
      scanAxes vs b axes (ScanState.best m0 a0) =
        ScanOutcome.done (ScanState.best m a) →
      ((m = m0 ∧ a = a0) ∨ (a ∈ axes ∧ m = overlapOn vs b a)) ∧ m ≤ m0 ∧
        ∀ x ∈ axes, 0 < overlapOn vs b x ∧ m ≤ overlapOn vs b x := by
  intro axes
  induction axes with
  | nil =>
    intro m0 a0 m a h
    unfold scanAxes at h
    cases h
    exact ⟨Or.inl ⟨rfl, rfl⟩, le_refl _, by intro x hx; cases hx⟩
  | cons ax rest ih =>
    intro m0 a0 m a h
    unfold scanAxes at h
    dsimp only at h
    by_cases hpos : overlapOn vs b ax ≤ 0
    · rw [if_pos hpos] at h
      cases h
    · rw [if_neg hpos] at h
      push_neg at hpos
      by_cases hlt : overlapOn vs b ax < m0
      · rw [if_pos hlt] at h
        obtain ⟨hor, hle, hall⟩ := ih (overlapOn vs b ax) ax m a h
        refine ⟨?_, by linarith, ?_⟩
        · rcases hor with ⟨hm, ha⟩ | ⟨hmem, hov⟩
          · exact Or.inr ⟨by rw [ha]; exact List.mem_cons_self _ _, by rw [hm, ha]⟩
          · exact Or.inr ⟨List.mem_cons_of_mem _ hmem, hov⟩
        · intro x hx
          rcases List.mem_cons.mp hx with hxa | hxr
          · subst hxa
            exact ⟨hpos, hle⟩
          · exact hall x hxr
      · rw [if_neg hlt] at h
        push_neg at hlt
        obtain ⟨hor, hle, hall⟩ := ih m0 a0 m a h
        refine ⟨?_, hle, ?_⟩
        · rcases hor with h1 | ⟨hmem, hov⟩
          · exact Or.inl h1
          · exact Or.inr ⟨List.mem_cons_of_mem _ hmem, hov⟩
        · intro x hx
          rcases List.mem_cons.mp hx with hxa | hxr
          · subst hxa
            exact ⟨hpos, by linarith⟩
          · exact hall x hxr

/-- The axis loop started from the empty accumulator (`minOverlap = ∞`,
`mtvAxis = null`): on reaching a best axis, that axis comes from the list
with its own overlap at the minimum of all scanned overlaps, all strictly
positive. -/
theorem scanAxes_from_start (vs : List Pt) (b : Ball) :
    ∀ (axes : List Pt) (m : ℝ) (a : Pt),
      scanAxes vs b axes ScanState.noAxis = ScanOutcome.done (ScanState.best m a) →
      (a ∈ axes ∧ m = overlapOn vs b a) ∧
        ∀ x ∈ axes, 0 < overlapOn vs b x ∧ m ≤ overlapOn vs b x := by
  intro axes m a h
  cases axes with
  | nil =>
    unfold scanAxes at h
    cases h
  | cons ax rest =>
    unfold scanAxes at h
    dsimp only at h
    by_cases hpos : overlapOn vs b ax ≤ 0
    · rw [if_pos hpos] at h
      cases h
    · rw [if_neg hpos] at h
      push_neg at hpos
      obtain ⟨hor, hle, hall⟩ := scanAxes_invariant vs b rest (overlapOn vs b ax) ax m a h
      constructor
      · rcases hor with ⟨hm, ha⟩ | ⟨hmem, hov⟩
        · exact ⟨by rw [ha]; exact List.mem_cons_self _ _, by rw [hm, ha]⟩
        · exact ⟨List.mem_cons_of_mem _ hmem, hov⟩
      · intro x hx
        rcases List.mem_cons.mp hx with hxa | hxr
        · subst hxa
          exact ⟨hpos, hle⟩
        · exact hall x hxr

/-- Structure of every collision result: the reported normal is (up to the
outward sign flip) a candidate axis achieving the minimum overlap, every
candidate axis overlaps strictly, and the normal points from the rectangle
center toward the circle center. -/
theorem check_hit_structure (ball : Ball) (brick : Brick) (n : Pt) (o : ℝ)
    (h : checkCircleRectCollision ball brick = CollisionResult.hit n o) :
    ∃ a ∈ collisionAxes ball brick, (n = a ∨ n = Vec.scale a (-1)) ∧
      o = overlapOn (getRectVertices brick) ball a ∧
      (∀ x ∈ collisionAxes ball brick,
        0 < overlapOn (getRectVertices brick) ball x ∧
          o ≤ overlapOn (getRectVertices brick) ball x) ∧
      0 ≤ Vec.dot n (Vec.sub (Vec.create ball.x ball.y)
        (Vec.create (brick.x + brick.width / 2) (brick.y + brick.height / 2))) := by
  unfold checkCircleRectCollision at h
  dsimp only at h
  rcases hscan : scanAxes (getRectVertices brick) ball (collisionAxes ball brick)
      ScanState.noAxis with _ | st
  · rw [hscan] at h
    cases h
  · rw [hscan] at h
    cases st with
    | noAxis => cases h
    | best m a =>
      obtain ⟨⟨hmem, hov⟩, hall⟩ :=
        scanAxes_from_start (getRectVertices brick) ball (collisionAxes ball brick)
          m a hscan
      dsimp only at h
      by_cases hdot : Vec.dot a (Vec.sub (Vec.create ball.x ball.y)
          (Vec.create (brick.x + brick.width / 2) (brick.y + brick.height / 2))) < 0
      · rw [if_pos hdot] at h
        cases h
        refine ⟨a, hmem, Or.inr rfl, hov, fun x hx => (hall x hx).imp id id, ?_⟩
        rw [dot_scale]
        nlinarith
      · rw [if_neg hdot] at h
        cases h
        exact ⟨n, hmem, Or.inl rfl, hov, fun x hx => (hall x hx).imp id id,
          le_of_not_lt hdot⟩

/-- C4.  Whenever `checkCircleRectCollision` reports a collision, the
returned axis is a candidate axis of smallest projection overlap among all
tested axes (and the returned overlap is the overlap of that axis), with its sign
chosen so that its dot product with the vector from the rectangle center to
the circle center is nonnegative. -/
theorem mtv_smallest_overlap_outward (ball : Ball) (brick : Brick) (n : Pt)
    (o : ℝ) (h : checkCircleRectCollision ball brick = CollisionResult.hit n o) :
    ∃ a ∈ collisionAxes ball brick, (n = a ∨ n = Vec.scale a (-1)) ∧
      o = overlapOn (getRectVertices brick) ball a ∧
      (∀ x ∈ collisionAxes ball brick,
        o ≤ overlapOn (getRectVertices brick) ball x) ∧
      0 ≤ Vec.dot n (Vec.sub (Vec.create ball.x ball.y)
        (Vec.create (brick.x + brick.width / 2) (brick.y + brick.height / 2))) := by
  obtain ⟨a, hmem, hsign, hov, hall, hdot⟩ := check_hit_structure ball brick n o h
  exact ⟨a, hmem, hsign, hov, fun x hx => (hall x hx).2, hdot⟩

/-- Normalizing a positive multiple of a unit vector yields that unit
vector. -/
theorem normalize_smul_unit (ux uy a : ℝ) (ha : 0 < a)
    (hu : ux * ux + uy * uy = 1) :
    Vec.normalize ⟨a * ux, a * uy⟩ = ⟨ux, uy⟩ := by
  have h1 : Vec.lenSq ⟨a * ux, a * uy⟩ = a ^ 2 := by
    unfold Vec.lenSq
    dsimp only
    linear_combination (a ^ 2) * hu
  have hlen : Vec.len ⟨a * ux, a * uy⟩ = a := by
    rw [len_eq_abs_of_sq _ a h1, abs_of_pos ha]
  unfold Vec.normalize
  rw [hlen, if_neg (ne_of_gt ha)]
  unfold Vec.scale
  dsimp only
  simp only [Pt.mk.injEq]
  have hne : a ≠ 0 := ne_of_gt ha
  constructor <;> field_simp

/-- On a four-vertex list, `getRectAxes` is the four-fold dedup-push of the
four edge normals (the fold over indices `0..3` computed out). -/
theorem getRectAxes_four (A B C D : Pt) :
    getRectAxes [A, B, C, D] =
      dedupAdd (dedupAdd (dedupAdd (dedupAdd []
        (Vec.normalize (Vec.perp (Vec.sub B A))))
        (Vec.normalize (Vec.perp (Vec.sub C B))))
        (Vec.normalize (Vec.perp (Vec.sub D C))))
        (Vec.normalize (Vec.perp (Vec.sub A D))) := by
  unfold getRectAxes
  rw [show [A, B, C, D].length = 4 from rfl, show List.range 4 = [0, 1, 2, 3] from rfl]
  simp only [List.foldl_cons, List.foldl_nil]
  rfl

/-- Pushing a normal onto the empty axis list keeps it. -/
theorem dedupAdd_nil (n : Pt) : dedupAdd [] n = [n] := by
  unfold dedupAdd
  rw [if_neg]
  · rfl
  · rintro ⟨ax, hax, _⟩
    cases hax

/-- The separating axes of any rotated rectangle with positive extents are
exactly the normalized first two edge normals: the other two edge normals
are antiparallel to them and are deduplicated away. -/
theorem axes_of_parallelogram (A B C D : Pt) (w h θ : ℝ) (hw : 0 < w)
    (hh : 0 < h)
    (hBA : Vec.sub B A = ⟨w * Real.cos θ, w * Real.sin θ⟩)
    (hCB : Vec.sub C B = ⟨h * -Real.sin θ, h * Real.cos θ⟩)
    (hDC : Vec.sub D C = ⟨w * -Real.cos θ, w * -Real.sin θ⟩)
    (hAD : Vec.sub A D = ⟨h * Real.sin θ, h * -Real.cos θ⟩) :
    getRectAxes [A, B, C, D] =
      [⟨-Real.sin θ, Real.cos θ⟩, ⟨-Real.cos θ, -Real.sin θ⟩] := by
  have hpyth := Real.sin_sq_add_cos_sq θ
  have hperp1 : Vec.perp (⟨w * Real.cos θ, w * Real.sin θ⟩ : Pt) =
      ⟨w * -Real.sin θ, w * Real.cos θ⟩ := by
    unfold Vec.perp
    simp only [Pt.mk.injEq]
    exact ⟨by ring, trivial⟩
  have hperp2 : Vec.perp (⟨h * -Real.sin θ, h * Real.cos θ⟩ : Pt) =
      ⟨h * -Real.cos θ, h * -Real.sin θ⟩ := by
    unfold Vec.perp
    simp only [Pt.mk.injEq]
    exact ⟨by ring, trivial⟩
  have hperp3 : Vec.perp (⟨w * -Real.cos θ, w * -Real.sin θ⟩ : Pt) =
      ⟨w * Real.sin θ, w * -Real.cos θ⟩ := by
    unfold Vec.perp
    simp only [Pt.mk.injEq]
    exact ⟨by ring, trivial⟩
  have hperp4 : Vec.perp (⟨h * Real.sin θ, h * -Real.cos θ⟩ : Pt) =
      ⟨h * Real.cos θ, h * Real.sin θ⟩ := by
    unfold Vec.perp
    simp only [Pt.mk.injEq]
    exact ⟨by ring, trivial⟩
  rw [getRectAxes_four, hBA, hCB, hDC, hAD, hperp1, hperp2, hperp3, hperp4,
    normalize_smul_unit (-Real.sin θ) (Real.cos θ) w hw (by linear_combination hpyth),
    normalize_smul_unit (-Real.cos θ) (-Real.sin θ) h hh (by linear_combination hpyth),
    normalize_smul_unit (Real.sin θ) (-Real.cos θ) w hw (by linear_combination hpyth),
    normalize_smul_unit (Real.cos θ) (Real.sin θ) h hh (by linear_combination hpyth),
    dedupAdd_nil]
  have hd2 : dedupAdd [⟨-Real.sin θ, Real.cos θ⟩] ⟨-Real.cos θ, -Real.sin θ⟩ =
      [⟨-Real.sin θ, Real.cos θ⟩, ⟨-Real.cos θ, -Real.sin θ⟩] := by
    unfold dedupAdd
    rw [if_neg]
    · rfl
    · rintro ⟨ax, hax, hlt⟩
      simp only [List.mem_singleton] at hax
      subst hax
      have hd : Vec.dot ⟨-Real.sin θ, Real.cos θ⟩ ⟨-Real.cos θ, -Real.sin θ⟩ = 0 := by
        unfold Vec.dot
        ring
      rw [hd] at hlt
      norm_num at hlt
  rw [hd2]
  have hd3 : dedupAdd [⟨-Real.sin θ, Real.cos θ⟩, ⟨-Real.cos θ, -Real.sin θ⟩]
      ⟨Real.sin θ, -Real.cos θ⟩ =
      [⟨-Real.sin θ, Real.cos θ⟩, ⟨-Real.cos θ, -Real.sin θ⟩] := by
    unfold dedupAdd
    rw [if_pos]
    refine ⟨⟨-Real.sin θ, Real.cos θ⟩, List.mem_cons_self _ _, ?_⟩
    have hd : Vec.dot ⟨-Real.sin θ, Real.cos θ⟩ ⟨Real.sin θ, -Real.cos θ⟩ = -1 := by
      unfold Vec.dot
      linear_combination -hpyth
    rw [hd]
    norm_num
  rw [hd3]
  unfold dedupAdd
  rw [if_pos]
  refine ⟨⟨-Real.cos θ, -Real.sin θ⟩, ?_, ?_⟩
  · exact List.mem_cons_of_mem _ (List.mem_cons_self _ _)
  · have hd : Vec.dot ⟨-Real.cos θ, -Real.sin θ⟩ ⟨Real.cos θ, Real.sin θ⟩ = -1 := by
      unfold Vec.dot
      linear_combination -hpyth
    rw [hd]
    norm_num

/-- Closed form of `getRectVertices`: the four corners written out. -/
theorem rect_vertices_closed (brick : Brick) :
    getRectVertices brick =
      [⟨brick.x + brick.width / 2 - brick.width / 2 * Real.cos brick.angle
          + brick.height / 2 * Real.sin brick.angle,
        brick.y + brick.height / 2 - brick.width / 2 * Real.sin brick.angle
          - brick.height / 2 * Real.cos brick.angle⟩,
       ⟨brick.x + brick.width / 2 + brick.width / 2 * Real.cos brick.angle
          + brick.height / 2 * Real.sin brick.angle,
        brick.y + brick.height / 2 + brick.width / 2 * Real.sin brick.angle
          - brick.height / 2 * Real.cos brick.angle⟩,
       ⟨brick.x + brick.width / 2 + brick.width / 2 * Real.cos brick.angle
          - brick.height / 2 * Real.sin brick.angle,
        brick.y + brick.height / 2 + brick.width / 2 * Real.sin brick.angle
          + brick.height / 2 * Real.cos brick.angle⟩,
       ⟨brick.x + brick.width / 2 - brick.width / 2 * Real.cos brick.angle
          - brick.height / 2 * Real.sin brick.angle,
        brick.y + brick.height / 2 - brick.width / 2 * Real.sin brick.angle
          + brick.height / 2 * Real.cos brick.angle⟩] := by
  unfold getRectVertices
  dsimp only
  simp only [List.map_cons, List.map_nil, List.cons.injEq, Pt.mk.injEq]
  repeat' apply And.intro
  all_goals first
  | trivial
  | ring

/-- The separating axes of a brick with positive extents, in closed form:
the rotated up-normal and left-normal. -/
theorem rect_axes_closed (brick : Brick) (hw : 0 < brick.width)
    (hh : 0 < brick.height) :
    getRectAxes (getRectVertices brick) =
      [⟨-Real.sin brick.angle, Real.cos brick.angle⟩,
       ⟨-Real.cos brick.angle, -Real.sin brick.angle⟩] := by
  rw [rect_vertices_closed brick]
  apply axes_of_parallelogram _ _ _ _ brick.width brick.height brick.angle hw hh
  all_goals
    unfold Vec.sub
    simp only [Pt.mk.injEq]
    constructor <;> ring

/-- Every candidate axis assembled by `checkCircleRectCollision` for a brick
with positive extents is unit length: edge normals are normalized nonzero
edges, and the corner axis is only added when its normalization is
nondegenerate. -/
theorem collisionAxes_unit (ball : Ball) (brick : Brick) (hw : 0 < brick.width)
    (hh : 0 < brick.height) :
    ∀ x ∈ collisionAxes ball brick, Vec.len x = 1 := by
  have hpyth := Real.sin_sq_add_cos_sq brick.angle
  have len1 : Vec.len ⟨-Real.sin brick.angle, Real.cos brick.angle⟩ = 1 := by
    rw [len_eq_abs_of_sq _ 1 (by
      unfold Vec.lenSq
      dsimp only
      linear_combination hpyth)]
    norm_num
  have len2 : Vec.len ⟨-Real.cos brick.angle, -Real.sin brick.angle⟩ = 1 := by
    rw [len_eq_abs_of_sq _ 1 (by
      unfold Vec.lenSq
      dsimp only
      linear_combination hpyth)]
    norm_num
  have hmem2 : ∀ x ∈ [(⟨-Real.sin brick.angle, Real.cos brick.angle⟩ : Pt),
      ⟨-Real.cos brick.angle, -Real.sin brick.angle⟩], Vec.len x = 1 := by
    intro x hx
    rcases List.mem_cons.mp hx with rfl | hx2
    · exact len1
    · rcases List.mem_cons.mp hx2 with rfl | hx3
      · exact len2
      · cases hx3
  intro x hx
  unfold collisionAxes at hx
  dsimp only at hx
  rw [rect_axes_closed brick hw hh] at hx
  split at hx
  · rename_i hcond
    rcases List.mem_append.mp hx with h1 | h2
    · exact hmem2 x h1
    · simp only [List.mem_singleton] at h2
      subst h2
      obtain ⟨hls, -⟩ := hcond
      by_cases hu : Vec.sub (Vec.create ball.x ball.y)
          (findClosestVertex (Vec.create ball.x ball.y) (getRectVertices brick)) =
          ⟨0, 0⟩
      · rw [hu] at hls
        have hz : Vec.normalize ⟨0, 0⟩ = ⟨0, 0⟩ := by
          unfold Vec.normalize
          rw [if_pos ((len_eq_zero_iff _).mpr rfl)]
          rfl
        rw [hz] at hls
        unfold Vec.lenSq at hls
        norm_num at hls
      · exact len_normalize _ hu
  · exact hmem2 x hx

/-- C9.  For every brick with positive width and height, whenever
`checkCircleRectCollision` reports a collision, the returned normal is unit
length and the returned overlap is strictly positive — so the result always
satisfies the unit-normal precondition `Vec.reflect` expects of its
caller. -/
theorem collision_normal_unit_overlap_pos (ball : Ball) (brick : Brick)
    (n : Pt) (o : ℝ) (hw : 0 < brick.width) (hh : 0 < brick.height)
    (h : checkCircleRectCollision ball brick = CollisionResult.hit n o) :
    Vec.len n = 1 ∧ 0 < o := by
  obtain ⟨a, hmem, hsign, hov, hall, -⟩ := check_hit_structure ball brick n o h
  have hu := collisionAxes_unit ball brick hw hh a hmem
  constructor
  · rcases hsign with rfl | rfl
    · exact hu
    · rw [len_scale, hu]
      norm_num
  · rw [hov]
    exact (hall a hmem).1

/-- Concrete evaluation: a ball of radius `10` at `(100, 100)` against any
axis-aligned `100 × 100` brick at `(100, 105)` collides with normal
`(0, -1)` and overlap `5` (the top edge is the minimum-translation axis,
flipped to point from the rectangle center up toward the circle center). -/
theorem checkEval_topEdge (b : Brick) (hx : b.x = 100) (hy : b.y = 105)
    (hw : b.width = 100) (hh : b.height = 100) (ha : b.angle = 0) :
    checkCircleRectCollision ⟨100, 100, 10⟩ b = CollisionResult.hit ⟨0, -1⟩ 5 := by
  have hwpos : (0 : ℝ) < b.width := by rw [hw]; norm_num
  have hhpos : (0 : ℝ) < b.height := by rw [hh]; norm_num
  have hv : getRectVertices b = [⟨100, 105⟩, ⟨200, 105⟩, ⟨200, 205⟩, ⟨100, 205⟩] := by
    rw [rect_vertices_closed b, hx, hy, hw, hh, ha]
    norm_num
  have haxes0 : getRectAxes (getRectVertices b) = [⟨0, 1⟩, ⟨-1, 0⟩] := by
    rw [rect_axes_closed b hwpos hhpos, ha]
    norm_num
  have hclosest : findClosestVertex (Vec.create 100 100) (getRectVertices b) =
      ⟨100, 105⟩ := by
    rw [hv]
    unfold findClosestVertex
    simp only [List.foldl_cons, List.foldl_nil]
    norm_num [closerVertex, Vec.lenSq, Vec.sub, Vec.create]
  have hsub : Vec.sub (Vec.create 100 100) (⟨100, 105⟩ : Pt) = ⟨5 * 0, 5 * (-1)⟩ := by
    unfold Vec.sub Vec.create
    norm_num
  have hnorm : Vec.normalize (Vec.sub (Vec.create 100 100) (⟨100, 105⟩ : Pt)) =
      ⟨0, -1⟩ := by
    rw [hsub, normalize_smul_unit 0 (-1) 5 (by norm_num) (by norm_num)]
  have haxes : collisionAxes ⟨100, 100, 10⟩ b = [⟨0, 1⟩, ⟨-1, 0⟩] := by
    unfold collisionAxes
    dsimp only
    rw [haxes0, hclosest, hnorm, if_neg]
    rintro ⟨-, hne⟩
    refine hne ⟨⟨0, 1⟩, by simp, ?_⟩
    norm_num [Vec.dot]
  have hover1 : overlapOn (getRectVertices b) ⟨100, 100, 10⟩ ⟨0, 1⟩ = 5 := by
    unfold overlapOn
    rw [hv]
    unfold projectShapeOntoAxis
    simp only [List.foldl_cons, List.foldl_nil]
    norm_num [projStep, projectCircleOntoAxis, Vec.dot, Vec.create, min_def, max_def]
  have hover2 : overlapOn (getRectVertices b) ⟨100, 100, 10⟩ ⟨-1, 0⟩ = 10 := by
    unfold overlapOn
    rw [hv]
    unfold projectShapeOntoAxis
    simp only [List.foldl_cons, List.foldl_nil]
    norm_num [projStep, projectCircleOntoAxis, Vec.dot, Vec.create, min_def, max_def]
  have hscan : scanAxes (getRectVertices b) ⟨100, 100, 10⟩ [⟨0, 1⟩, ⟨-1, 0⟩]
      ScanState.noAxis = ScanOutcome.done (ScanState.best 5 ⟨0, 1⟩) := by
    unfold scanAxes
    dsimp only
    rw [hover1, if_neg (by norm_num : ¬ (5 : ℝ) ≤ 0)]
    unfold scanAxes
    dsimp only
    rw [hover2, if_neg (by norm_num : ¬ (10 : ℝ) ≤ 0),
      if_neg (by norm_num : ¬ (10 : ℝ) < 5)]
    rfl
  unfold checkCircleRectCollision
  dsimp only
  rw [haxes, hscan]
  dsimp only
  rw [hx, hy, hw, hh, if_pos (by norm_num [Vec.dot, Vec.sub, Vec.create])]
  norm_num [Vec.scale]

/-- Concrete evaluation: the pushed-out ball at `(100, 94.95)` still
collides with the second, axis-aligned `200 × 200` brick at
`(105, 94.95)`, now with normal `(-1, 0)` and overlap `5` (the left edge is
the minimum-translation axis). -/
theorem checkEval_leftEdge :
    checkCircleRectCollision ⟨100, 94.95, 10⟩
        ⟨105, 94.95, 200, 200, 0, false, none, 50, some 1, none, none⟩ =
      CollisionResult.hit ⟨-1, 0⟩ 5 := by
  set b : Brick := ⟨105, 94.95, 200, 200, 0, false, none, 50, some 1, none, none⟩
    with hb
  have hwpos : (0 : ℝ) < b.width := by norm_num [hb]
  have hhpos : (0 : ℝ) < b.height := by norm_num [hb]
  have hv : getRectVertices b =
      [⟨105, 94.95⟩, ⟨305, 94.95⟩, ⟨305, 294.95⟩, ⟨105, 294.95⟩] := by
    rw [rect_vertices_closed b, hb]
    norm_num
  have haxes0 : getRectAxes (getRectVertices b) = [⟨0, 1⟩, ⟨-1, 0⟩] := by
    rw [rect_axes_closed b hwpos hhpos, hb]
    norm_num
  have hclosest : findClosestVertex (Vec.create 100 94.95) (getRectVertices b) =
      ⟨105, 94.95⟩ := by
    rw [hv]
    unfold findClosestVertex
    simp only [List.foldl_cons, List.foldl_nil]
    norm_num [closerVertex, Vec.lenSq, Vec.sub, Vec.create]
  have hsub : Vec.sub (Vec.create 100 94.95) (⟨105, 94.95⟩ : Pt) =
      ⟨5 * (-1), 5 * 0⟩ := by
    unfold Vec.sub Vec.create
    norm_num
  have hnorm : Vec.normalize (Vec.sub (Vec.create 100 94.95) (⟨105, 94.95⟩ : Pt)) =
      ⟨-1, 0⟩ := by
    rw [hsub, normalize_smul_unit (-1) 0 5 (by norm_num) (by norm_num)]
  have haxes : collisionAxes ⟨100, 94.95, 10⟩ b = [⟨0, 1⟩, ⟨-1, 0⟩] := by
    unfold collisionAxes
    dsimp only
    rw [haxes0, hclosest, hnorm, if_neg]
    rintro ⟨-, hne⟩
    refine hne ⟨⟨-1, 0⟩, by simp, ?_⟩
    norm_num [Vec.dot]
  have hover1 : overlapOn (getRectVertices b) ⟨100, 94.95, 10⟩ ⟨0, 1⟩ = 10 := by
    unfold overlapOn
    rw [hv]
    unfold projectShapeOntoAxis
    simp only [List.foldl_cons, List.foldl_nil]
    norm_num [projStep, projectCircleOntoAxis, Vec.dot, Vec.create, min_def, max_def]
  have hover2 : overlapOn (getRectVertices b) ⟨100, 94.95, 10⟩ ⟨-1, 0⟩ = 5 := by
    unfold overlapOn
    rw [hv]
    unfold projectShapeOntoAxis
    simp only [List.foldl_cons, List.foldl_nil]
    norm_num [projStep, projectCircleOntoAxis, Vec.dot, Vec.create, min_def, max_def]
  have hscan : scanAxes (getRectVertices b) ⟨100, 94.95, 10⟩ [⟨0, 1⟩, ⟨-1, 0⟩]
      ScanState.noAxis = ScanOutcome.done (ScanState.best 5 ⟨-1, 0⟩) := by
    unfold scanAxes
    dsimp only
    rw [hover1, if_neg (by norm_num : ¬ (10 : ℝ) ≤ 0)]
    unfold scanAxes
    dsimp only
    rw [hover2, if_neg (by norm_num : ¬ (5 : ℝ) ≤ 0),
      if_pos (by norm_num : (5 : ℝ) < 10)]
    rfl
  unfold checkCircleRectCollision
  dsimp only
  rw [haxes, hscan]
  dsimp only
  rw [if_neg]
  · norm_num [Vec.dot, Vec.sub, Vec.create]

/-- C4 witness: the collision of the radius-10 ball at `(100, 100)` with the
`100 × 100` brick at `(100, 105)` — normal `(0, -1)`, overlap `5` — exhibits
the minimal-overlap axis and outward sign. -/
theorem mtv_smallest_overlap_outward_witness :
    ∃ a ∈ collisionAxes ⟨100, 100, 10⟩
        ⟨100, 105, 100, 100, 0, false, none, 50, some 1, none, none⟩,
      ((⟨0, -1⟩ : Pt) = a ∨ (⟨0, -1⟩ : Pt) = Vec.scale a (-1)) ∧
        (5 : ℝ) = overlapOn (getRectVertices
            ⟨100, 105, 100, 100, 0, false, none, 50, some 1, none, none⟩)
          ⟨100, 100, 10⟩ a ∧
        (∀ x ∈ collisionAxes ⟨100, 100, 10⟩
            ⟨100, 105, 100, 100, 0, false, none, 50, some 1, none, none⟩,
          (5 : ℝ) ≤ overlapOn (getRectVertices
              ⟨100, 105, 100, 100, 0, false, none, 50, some 1, none, none⟩)
            ⟨100, 100, 10⟩ x) ∧
        0 ≤ Vec.dot ⟨0, -1⟩ (Vec.sub (Vec.create 100 100)
          (Vec.create (100 + 100 / 2) (105 + 100 / 2))) :=
  mtv_smallest_overlap_outward ⟨100, 100, 10⟩
    ⟨100, 105, 100, 100, 0, false, none, 50, some 1, none, none⟩ ⟨0, -1⟩ 5
    (checkEval_topEdge _ rfl rfl rfl rfl rfl)

/-- C9 witness: the same concrete collision has a unit normal and a strictly
positive overlap. -/
theorem collision_normal_unit_overlap_pos_witness :
    Vec.len ⟨0, -1⟩ = 1 ∧ (0 : ℝ) < 5 :=
  collision_normal_unit_overlap_pos ⟨100, 100, 10⟩
    ⟨100, 105, 100, 100, 0, false, none, 50, some 1, none, none⟩ ⟨0, -1⟩ 5
    (by norm_num) (by norm_num) (checkEval_topEdge _ rfl rfl rfl rfl rfl)

/-- C2 as amended.  The brick loop applies at most one bounce per brick per
tick: the number of push-out/reflection pairs applied in one tick is bounded
by the number of bricks, not by one. -/
theorem countBounces_le_length (t : ℝ) :
    ∀ (bricks : List Brick) (ball : SimBall),
      countBounces t ball bricks ≤ bricks.length := by
  intro bricks
  induction bricks with
  | nil =>
    intro ball
    simp [countBounces]
  | cons b rest ih =>
    intro ball
    unfold countBounces
    dsimp only
    rcases h : checkCircleRectCollision ball.circle (getBrickAtTime b t) with _ | ⟨n, o⟩
    · dsimp only
      exact le_trans (ih ball) (by simp)
    · dsimp only
      by_cases hk : (getBrickAtTime b t).isKillBrick = true
      · rw [if_pos hk]
        exact Nat.zero_le _
      · rw [if_neg hk]
        by_cases ho : o = 0
        · rw [if_pos ho]
          exact le_trans (ih ball) (by simp)
        · rw [if_neg ho]
          have h2 := ih (applyBounce ball n o)
          simp only [List.length_cons]
          omega

/-- C2 counterexample.  In one tick, a ball overlapping two non-lethal
bricks receives two push-outs and two velocity reflections — one per
overlapping obstacle, not a single selected one: the count is `2` and the
final ball shows both reflections composed. -/
theorem double_bounce_counterexample :
    countBounces 0 ⟨100, 100, 10, 3, 4⟩
        [⟨100, 105, 100, 100, 0, false, none, 50, some 1, none, none⟩,
         ⟨105, 94.95, 200, 200, 0, false, none, 50, some 1, none, none⟩] = 2 ∧
      processBricks 0 ⟨100, 100, 10, 3, 4⟩
        [⟨100, 105, 100, 100, 0, false, none, 50, some 1, none, none⟩,
         ⟨105, 94.95, 200, 200, 0, false, none, 50, some 1, none, none⟩] =
        some ⟨94.95, 94.95, 10, -3, -4⟩ := by
  have hA : checkCircleRectCollision ⟨100, 100, 10⟩
      ⟨100, 105, 100, 100, 0, false, none, 50, some 1, none, none⟩ =
      CollisionResult.hit ⟨0, -1⟩ 5 :=
    checkEval_topEdge _ rfl rfl rfl rfl rfl
  have hb1 : applyBounce ⟨100, 100, 10, 3, 4⟩ ⟨0, -1⟩ 5 =
      ⟨100, 94.95, 10, 3, -4⟩ := by
    unfold applyBounce COLLISION_PUSH_FACTOR
    dsimp only
    norm_num [Vec.scale, Vec.reflect, Vec.dot, Vec.sub, SimBall.mk.injEq]
  have hb2 : applyBounce ⟨100, 94.95, 10, 3, -4⟩ ⟨-1, 0⟩ 5 =
      ⟨94.95, 94.95, 10, -3, -4⟩ := by
    unfold applyBounce COLLISION_PUSH_FACTOR
    dsimp only
    norm_num [Vec.scale, Vec.reflect, Vec.dot, Vec.sub, SimBall.mk.injEq]
  have hB := checkEval_leftEdge
  norm_num at hb2 hB
  constructor
  · norm_num [countBounces, getBrickAtTime, SimBall.circle, hA, hb1, hB, hb2]
  · norm_num [processBricks, getBrickAtTime, SimBall.circle, hA, hb1, hB, hb2]

/-- Kinematic displacement never changes the lethal flag. -/
theorem getBrickAtTime_isKillBrick (b : Brick) (t : ℝ) :
    (getBrickAtTime b t).isKillBrick = b.isKillBrick := by
  cases b with
  | mk x y w h ang k mt mr ms ix iy =>
    cases mt with
    | none => rfl
    | some m =>
      cases ix with
      | none => rfl
      | some a =>
        cases iy with
        | none => rfl
        | some a2 => cases m <;> rfl

/-- C3 as amended.  The goal check runs after the obstacle scan, not before:
whenever the first brick of the level is lethal and collides with the moved
ball, the frame is a lethal failure — even when the moved position lies
within the goal home tolerance. -/
theorem goal_check_after_obstacle_scan (lvl : PreparedLevel) (phase : ℝ)
    (frame : ℕ) (ball : SimBall) (killB : Brick) (rest : List Brick)
    (n : Pt) (o : ℝ)
    (hbricks : lvl.bricks = killB :: rest)
    (hkill : killB.isKillBrick = true)
    (hwall : ¬ simWallOut lvl.width (simMove ball))
    (hbottom : ¬ simBottomOut lvl.height (simMove ball))
    (hhit : checkCircleRectCollision (simMove ball).circle
        (getBrickAtTime killB (phase + (frame : ℝ) / 60)) =
        CollisionResult.hit n o)
    (_goal_hyp : goalTest ⟨(simMove ball).x, (simMove ball).y⟩
        ⟨lvl.hole.x, lvl.hole.y⟩ (simMove ball).radius lvl.hole.radius) :
    frameStep lvl phase frame ball = FrameResult.dead := by
  have hpb : processBricks (phase + (frame : ℝ) / 60) (simMove ball)
      (killB :: rest) = none := by
    unfold processBricks
    dsimp only
    rw [hhit]
    dsimp only
    rw [getBrickAtTime_isKillBrick, if_pos hkill]
  simp only [frameStep]
  rw [if_neg hwall, if_neg hbottom]
  unfold frameStepCore
  rw [hbricks, hpb]

/-- C3 counterexample.  A fired ball whose moved position `(100, 100)` lies
within the home tolerance of the hole (hole at `(100, 100)`) but overlaps a kill
brick: the step returns the lethal failure, not `goalReached`. -/
theorem goal_preempted_by_kill_counterexample :
    goalTest ⟨100, 100⟩ ⟨100, 100⟩ 10 15 ∧
      frameStep ⟨800, 600, ⟨400, 540, 40, 10⟩, ⟨100, 100, 15⟩, ⟨420, 528, 10⟩,
          [⟨100, 105, 100, 100, 0, true, none, 50, some 1, none, none⟩]⟩ 0 0
        ⟨97, 96, 10, 3, 4⟩ = FrameResult.dead ∧
      frameStep ⟨800, 600, ⟨400, 540, 40, 10⟩, ⟨100, 100, 15⟩, ⟨420, 528, 10⟩,
          [⟨100, 105, 100, 100, 0, true, none, 50, some 1, none, none⟩]⟩ 0 0
        ⟨97, 96, 10, 3, 4⟩ ≠ FrameResult.home := by
  have hA : checkCircleRectCollision ⟨100, 100, 10⟩
      ⟨100, 105, 100, 100, 0, true, none, 50, some 1, none, none⟩ =
      CollisionResult.hit ⟨0, -1⟩ 5 :=
    checkEval_topEdge _ rfl rfl rfl rfl rfl
  have hdead : frameStep ⟨800, 600, ⟨400, 540, 40, 10⟩, ⟨100, 100, 15⟩,
      ⟨420, 528, 10⟩, [⟨100, 105, 100, 100, 0, true, none, 50, some 1, none, none⟩]⟩
      0 0 ⟨97, 96, 10, 3, 4⟩ = FrameResult.dead := by
    norm_num [frameStep, simMove, simWallOut, simBottomOut, frameStepCore,
      processBricks, getBrickAtTime, SimBall.circle, hA]
  refine ⟨?_, hdead, ?_⟩
  · unfold goalTest Vec.lenSq Vec.sub
    norm_num
  · rw [hdead]
    intro hc
    cases hc

/-- C3 witness for the amended theorem: the concrete kill-preempts-goal
frame, obtained by applying the amended theorem. -/
theorem goal_check_after_obstacle_scan_witness :
    frameStep ⟨800, 600, ⟨400, 540, 40, 10⟩, ⟨100, 100, 15⟩, ⟨420, 528, 10⟩,
        [⟨100, 105, 100, 100, 0, true, none, 50, some 1, none, none⟩]⟩ 0 0
      ⟨97, 96, 10, 3, 4⟩ = FrameResult.dead := by
  have hcirc : (simMove ⟨97, 96, 10, 3, 4⟩).circle = (⟨100, 100, 10⟩ : Ball) := by
    norm_num [simMove, SimBall.circle, Ball.mk.injEq]
  refine goal_check_after_obstacle_scan _ 0 0 _
    ⟨100, 105, 100, 100, 0, true, none, 50, some 1, none, none⟩ [] ⟨0, -1⟩ 5
    rfl rfl ?_ ?_ ?_ ?_
  · norm_num [simWallOut, simMove]
  · norm_num [simBottomOut, simMove]
  · rw [hcirc]
    exact checkEval_topEdge _ rfl rfl rfl rfl rfl
  · unfold goalTest Vec.lenSq Vec.sub
    norm_num [simMove]
